import Mathlib

/-!
A shallow embedding of the typed value model and coercion engine of the
Global-Common crate (src/value.rs, src/schema.rs, src/uuid.rs), together with
proofs about its behaviour.

Modelling conventions, used throughout:

* Rust machine integers become `Nat`/`Int` (`u8` payloads become `Fin 256`,
  `i64` becomes `Int`); `f64` payloads are modelled as exact rationals `Rat`
  (no NaN/infinity; none of the properties settled here depends on
  float-specific rounding or non-finite values).
* Fallible Rust functions returning `eyre::Result` become `Except CoerceErr`.
  The error constructors record the semantic kind of each failure site:
  `typeMismatch` for the accessor errors produced with `anyhow!`,
  `formatError` for text-parse failures (URL / boolean / date / time / UUID),
  `decodeError` for serde_json failures, `encodingError` for UTF-8 failures,
  `notImplemented` for the `todo!` branches, and `panicked` for panics raised
  by slice indexing or `Option::unwrap`.
* External-library codecs that the crate relies on (serde_json's JSON
  grammar, UTF-8 validation, the uuid / url / time crates) are translated at
  the level of detail the crate observes: a structural JSON value type, an
  executable JSON text parser, an executable strict UTF-8 decoder, a
  hyphenated-UUID parser/formatter, and calendar-validated date/time parsers
  mirroring the exact `format_description!` patterns in src/schema.rs.
-/

namespace GlobalCommon

/-- Error kinds for fallible operations of the crate (`eyre::Result` sites),
classified by the semantic kind of each failure site. -/
inductive CoerceErr where
  | typeMismatch (msg : String)
  | formatError
  | decodeError
  | encodingError
  | notImplemented
  | panicked (msg : String)
  deriving DecidableEq, Repr

/-- Rust's `Iterator::collect` into `Result<Vec<_>, _>` over an option of
each element: succeeds with the elementwise results in input order, or
fails at the first failing element. -/
def collectOption {A B : Type} (f : A → Option B) : List A → Option (List B)
  | [] => some []
  | a :: as => do
    let b ← f a
    let bs ← collectOption f as
    pure (b :: bs)

/-- `Number` from src/value.rs: `Byte(u8) | Integer(i64) | Float(f64)`,
with the `f64` payload modelled as an exact rational. -/
inductive Number where
  | byte (v : Fin 256)
  | integer (v : Int)
  | float (v : Rat)
  deriving DecidableEq, Repr

namespace Number

/-- `Number::into_u8`: succeeds only on the `Byte` variant. -/
def into_u8 : Number → Except CoerceErr (Fin 256)
  | .byte v => .ok v
  | _ => .error (.typeMismatch "Not u8")

/-- `Number::convert_f64`: total widening conversion. -/
def convert_f64 : Number → Rat
  | .byte v => (v.val : Rat)
  | .integer v => (v : Rat)
  | .float v => v

/-- `Number::convert_i64`: total conversion; the float case truncates toward
zero, the host's default `as i64` narrowing for in-range values. -/
def convert_i64 : Number → Int
  | .byte v => (v.val : Int)
  | .integer v => v
  | .float v => v.num / (v.den : Int)

/-- The discriminant index of a `Number` variant, in declaration order
(`Byte` = 0, `Integer` = 1, `Float` = 2). -/
def tag : Number → Nat
  | .byte _ => 0
  | .integer _ => 1
  | .float _ => 2

/-- The `#[derive(PartialEq)]` equality of `Number`: structural — the variant
discriminants must match before payloads are compared. -/
def beqNumber : Number → Number → Bool
  | .byte a, .byte b => a == b
  | .integer a, .integer b => a == b
  | .float a, .float b => a == b
  | _, _ => false

/-- The `#[derive(PartialOrd)]` comparison of `Number`: values of different
variants are ordered by variant declaration order; payloads are compared only
when the variants match. -/
def partialCmp (a b : Number) : Option Ordering :=
  match a, b with
  | .byte x, .byte y => some (compare x y)
  | .integer x, .integer y => some (compare x y)
  | .float x, .float y => some (compare x y)
  | x, y => some (compare x.tag y.tag)

/-- `Default for Number` returns `Integer(0)`. -/
def default : Number := .integer 0

end Number

/-! ## UUIDs (the uuid crate, as observed by this crate)

A UUID is 32 hexadecimal digits; its canonical wire form is the hyphenated
lowercase rendering `8-4-4-4-12`.  `Uuid::from_str` / `Uuid::try_parse_ascii`
are modelled as the hyphenated-form parser (the alternate encodings the uuid
crate also accepts are not exercised by any behaviour settled here). -/

/-- A UUID value: 32 hexadecimal digits. -/
abbrev Uuid : Type := { l : List (Fin 16) // l.length = 32 }

/-- Lowercase hexadecimal rendering of one digit. -/
def hexChar (d : Fin 16) : Char :=
  if d.val < 10 then Char.ofNat (48 + d.val) else Char.ofNat (87 + d.val)

/-- Hexadecimal digit value of a codepoint/byte, accepting both cases. -/
def hexVal (n : Nat) : Option (Fin 16) :=
  if h : 48 ≤ n ∧ n ≤ 57 then some ⟨n - 48, by omega⟩
  else if h : 97 ≤ n ∧ n ≤ 102 then some ⟨n - 87, by omega⟩
  else if h : 65 ≤ n ∧ n ≤ 70 then some ⟨n - 55, by omega⟩
  else none

/-- Consume exactly `n` hexadecimal digits from a list of codepoints. -/
def takeHex : Nat → List Nat → Option (List (Fin 16) × List Nat)
  | 0, cs => some ([], cs)
  | _ + 1, [] => none
  | n + 1, c :: cs => do
    let d ← hexVal c
    let (ds, rest) ← takeHex n cs
    pure (d :: ds, rest)

/-- Parse the hyphenated UUID form `8-4-4-4-12` from a list of codepoints,
requiring the whole input to be consumed. -/
def parseUuidList (cs : List Nat) : Option Uuid := do
  let (a, r) ← takeHex 8 cs
  match r with
  | 45 :: r => do
    let (b, r) ← takeHex 4 r
    match r with
    | 45 :: r => do
      let (c, r) ← takeHex 4 r
      match r with
      | 45 :: r => do
        let (d, r) ← takeHex 4 r
        match r with
        | 45 :: r => do
          let (e, r) ← takeHex 12 r
          match r with
          | [] =>
            let l := a ++ b ++ c ++ d ++ e
            if h : l.length = 32 then some ⟨l, h⟩ else none
          | _ => none
        | _ => none
      | _ => none
    | _ => none
  | _ => none

/-- `Uuid::from_str` on a Rust `&str`, modelled on the string's characters. -/
def parseUuidStr (s : String) : Option Uuid :=
  parseUuidList (s.toList.map Char.toNat)

/-- The hyphenated rendering of 32 hex digits: groups of 8-4-4-4-12. -/
def uuidHyphenated (l : List (Fin 16)) : List Char :=
  (l.take 8).map hexChar ++ '-' ::
    (((l.drop 8).take 4).map hexChar ++ '-' ::
      ((((l.drop 8).drop 4).take 4).map hexChar ++ '-' ::
        (((((l.drop 8).drop 4).drop 4).take 4).map hexChar ++ '-' ::
          ((((l.drop 8).drop 4).drop 4).drop 4).map hexChar)))

/-- Canonical hyphenated lowercase rendering of a `Uuid` (`Display` of the
uuid crate). -/
def formatUuid (u : Uuid) : String :=
  String.mk (uuidHyphenated u.val)

/-! ## URLs (the url crate, as observed by this crate)

`url::Url` values are kept in their serialized (already parsed and
normalized) string form; `Url::parse` is modelled as a syntactic check that
the string starts with a nonempty ASCII-letter scheme followed by `:`.
Parsed values are represented by strings accepted by that check, which is all
the crate observes of them: a `Url` is only created by `Url::parse` or by
deserialization, and serializes back to its string form. -/

/-- The syntactic URL check standing in for `Url::parse`. -/
def urlOk (s : String) : Bool :=
  match s.toList.span (fun c => c.isAlpha) with
  | (scheme, rest) => !scheme.isEmpty && rest.head? == some ':' && !rest.tail.isEmpty

/-- A parsed `url::Url`, carried in its string form. -/
abbrev MUrl : Type := { s : String // urlOk s = true }

/-- `Url::parse`, as modelled here. -/
def urlParse (s : String) : Option MUrl :=
  if h : urlOk s = true then some ⟨s, h⟩ else none

/-! ## Dates and times (the time crate, as observed by this crate)

`OffsetDateTime` values produced by this crate always carry the UTC offset
(`assume_utc`) and whole seconds, so they are modelled by their calendar
components; likewise `Date` and `Time` (the latter with a nanosecond field
for the `.[subsecond]` fallback).  The `format_description!` patterns of
src/schema.rs are translated into character-level parsers with the time
crate's component ranges and calendar validation. -/

/-- An `OffsetDateTime` at UTC offset, to whole-second precision. -/
structure MDateTime where
  year : Int
  month : Nat
  day : Nat
  hour : Nat
  minute : Nat
  second : Nat
  deriving DecidableEq, Repr

/-- A calendar `Date`. -/
structure MDate where
  year : Int
  month : Nat
  day : Nat
  deriving DecidableEq, Repr

/-- A clock `Time`. -/
structure MTime where
  hour : Nat
  minute : Nat
  second : Nat
  nanos : Nat
  deriving DecidableEq, Repr

/-- Decimal digit value of a character. -/
def digitVal (c : Char) : Option Nat :=
  if 48 ≤ c.toNat ∧ c.toNat ≤ 57 then some (c.toNat - 48) else none

/-- Consume exactly two decimal digits. -/
def parse2 : List Char → Option (Nat × List Char)
  | c1 :: c2 :: rest => do
    let a ← digitVal c1
    let b ← digitVal c2
    pure (10 * a + b, rest)
  | _ => none

/-- Consume exactly four decimal digits (the `[year]` component). -/
def parse4 : List Char → Option (Nat × List Char)
  | c1 :: c2 :: c3 :: c4 :: rest => do
    let a ← digitVal c1
    let b ← digitVal c2
    let c ← digitVal c3
    let d ← digitVal c4
    pure (1000 * a + 100 * b + 10 * c + d, rest)
  | _ => none

/-- Expect one literal character. -/
def expectChar (c : Char) : List Char → Option (List Char)
  | x :: rest => if x = c then some rest else none
  | _ => none

/-- Gregorian leap-year rule. -/
def isLeapYear (y : Int) : Bool :=
  y % 4 = 0 && (y % 100 ≠ 0 || y % 400 = 0)

/-- Days in a month (`Date::from_calendar_date` validation). -/
def daysInMonth (y : Int) (m : Nat) : Nat :=
  if m = 2 then (if isLeapYear y then 29 else 28)
  else if m = 4 ∨ m = 6 ∨ m = 9 ∨ m = 11 then 30
  else 31

/-- Parse `[year]-[month]-[day]` from characters, with calendar validation. -/
def parseDateChars (cs : List Char) : Option (MDate × List Char) := do
  let (y, r) ← parse4 cs
  let r ← expectChar '-' r
  let (mo, r) ← parse2 r
  let r ← expectChar '-' r
  let (d, r) ← parse2 r
  if 1 ≤ mo ∧ mo ≤ 12 ∧ 1 ≤ d ∧ d ≤ daysInMonth y mo then
    pure (⟨y, mo, d⟩, r)
  else none

/-- Parse `[hour]:[minute]` with component validation. -/
def parseHourMinute (cs : List Char) : Option (Nat × Nat × List Char) := do
  let (h, r) ← parse2 cs
  let r ← expectChar ':' r
  let (mi, r) ← parse2 r
  if h ≤ 23 ∧ mi ≤ 59 then pure (h, mi, r) else none

/-- `PrimitiveDateTime::parse` with `[year]-[month]-[day]T[hour]:[minute]`
followed by `assume_utc`; the absent seconds component defaults to zero. -/
def parseDateTimeMinute (s : String) : Option MDateTime := do
  let (d, r) ← parseDateChars s.toList
  let r ← expectChar 'T' r
  let (h, mi, r) ← parseHourMinute r
  match r with
  | [] => pure ⟨d.year, d.month, d.day, h, mi, 0⟩
  | _ => none

/-- `PrimitiveDateTime::parse` with
`[year]-[month]-[day]T[hour]:[minute]:[second]` followed by `assume_utc`. -/
def parseDateTimeSecond (s : String) : Option MDateTime := do
  let (d, r) ← parseDateChars s.toList
  let r ← expectChar 'T' r
  let (h, mi, r) ← parseHourMinute r
  let r ← expectChar ':' r
  let (sec, r) ← parse2 r
  match r with
  | [] => if sec ≤ 59 then pure ⟨d.year, d.month, d.day, h, mi, sec⟩ else none
  | _ => none

/-- `Date::parse` with `[year]-[month]-[day]`. -/
def parseDateStr (s : String) : Option MDate := do
  let (d, r) ← parseDateChars s.toList
  match r with
  | [] => pure d
  | _ => none

/-- `Time::parse` with `[hour]:[minute]:[second]`. -/
def parseTimePlain (s : String) : Option MTime := do
  let (h, mi, r) ← parseHourMinute s.toList
  let r ← expectChar ':' r
  let (sec, r) ← parse2 r
  match r with
  | [] => if sec ≤ 59 then pure ⟨h, mi, sec, 0⟩ else none
  | _ => none

/-- Consume one to nine subsecond digits, scaled to nanoseconds. -/
def parseSubsecond (cs : List Char) : Option (Nat × List Char) :=
  match cs with
  | c :: rest => do
    let d ← digitVal c
    let rec go (acc scale : Nat) : List Char → Nat × List Char
      | c :: rest =>
        match digitVal c, scale with
        | some d, s + 1 => go (acc * 10 + d) s rest
        | _, _ => (acc, c :: rest)
      | [] => (acc, [])
    let (v, r) := go d 8 rest
    let digits := cs.length - r.length
    pure (v * 10 ^ (9 - digits), r)
  | [] => none

/-- `Time::parse` with `[hour]:[minute]:[second].[subsecond]`. -/
def parseTimeSubsecond (s : String) : Option MTime := do
  let (h, mi, r) ← parseHourMinute s.toList
  let r ← expectChar ':' r
  let (sec, r) ← parse2 r
  let r ← expectChar '.' r
  let (ns, r) ← parseSubsecond r
  match r with
  | [] => if sec ≤ 59 then pure ⟨h, mi, sec, ns⟩ else none
  | _ => none

/-! ## JSON (serde_json, as observed by this crate)

`serde_json::Value` is modelled structurally.  serde_json keeps integer
numbers (`u64`/`i64`) distinct from floating-point numbers, and serde's
untagged/adjacently-tagged machinery dispatches on that distinction, so the
model keeps a two-way `JNum`.  Float payloads are exact rationals. -/

/-- A JSON number: serde_json's integer representation versus its
floating-point representation. -/
inductive JNum where
  | int (n : Int)
  | float (q : Rat)
  deriving DecidableEq, Repr

/-- `serde_json::Value`. -/
inductive Json where
  | null
  | bool (b : Bool)
  | num (n : JNum)
  | str (s : String)
  | arr (xs : List Json)
  | obj (kvs : List (String × Json))

/-! ## UTF-8 (String::from_utf8 and str::as_bytes) -/

/-- True for a UTF-8 continuation byte `0b10xxxxxx`. -/
def isCont (b : Fin 256) : Bool := 128 ≤ b.val && b.val ≤ 191

/-- Strict UTF-8 decoding of a byte sequence (`String::from_utf8`): rejects
overlong encodings, surrogate codepoints and values above `0x10FFFF`. -/
def utf8Decode : List (Fin 256) → Option (List Char)
  | [] => some []
  | b :: rest =>
    if b.val ≤ 0x7F then do
      let cs ← utf8Decode rest
      pure (Char.ofNat b.val :: cs)
    else if b.val ≤ 0xC1 then none
    else if b.val ≤ 0xDF then
      match rest with
      | b2 :: rest2 =>
        if isCont b2 then do
          let cs ← utf8Decode rest2
          pure (Char.ofNat ((b.val - 0xC0) * 64 + (b2.val - 0x80)) :: cs)
        else none
      | _ => none
    else if b.val ≤ 0xEF then
      match rest with
      | b2 :: b3 :: rest3 =>
        let lo2 := if b.val = 0xE0 then 0xA0 else 0x80
        let hi2 := if b.val = 0xED then 0x9F else 0xBF
        if lo2 ≤ b2.val ∧ b2.val ≤ hi2 ∧ isCont b3 then do
          let cs ← utf8Decode rest3
          pure (Char.ofNat ((b.val - 0xE0) * 4096 + (b2.val - 0x80) * 64 +
            (b3.val - 0x80)) :: cs)
        else none
      | _ => none
    else if b.val ≤ 0xF4 then
      match rest with
      | b2 :: b3 :: b4 :: rest4 =>
        let lo2 := if b.val = 0xF0 then 0x90 else 0x80
        let hi2 := if b.val = 0xF4 then 0x8F else 0xBF
        if lo2 ≤ b2.val ∧ b2.val ≤ hi2 ∧ isCont b3 ∧ isCont b4 then do
          let cs ← utf8Decode rest4
          pure (Char.ofNat ((b.val - 0xF0) * 262144 + (b2.val - 0x80) * 4096 +
            (b3.val - 0x80) * 64 + (b4.val - 0x80)) :: cs)
        else none
      | _ => none
    else none

/-- UTF-8 encoding of one character (`str::as_bytes`, per character). -/
def utf8EncodeChar (c : Char) : List Nat :=
  let n := c.toNat
  if n < 0x80 then [n]
  else if n < 0x800 then [0xC0 + n / 64, 0x80 + n % 64]
  else if n < 0x10000 then
    [0xE0 + n / 4096, 0x80 + n / 64 % 64, 0x80 + n % 64]
  else
    [0xF0 + n / 262144, 0x80 + n / 4096 % 64, 0x80 + n / 64 % 64, 0x80 + n % 64]

/-- `str::as_bytes` of a string, as a list of byte values. -/
def strBytes (s : String) : List Nat :=
  (s.toList.map utf8EncodeChar).flatten

/-! ## JSON text parsing (serde_json's grammar) -/

/-- Skip JSON whitespace. -/
def skipWs : List Char → List Char
  | c :: rest =>
    if c = ' ' ∨ c = '\t' ∨ c = '\n' ∨ c = '\r' then skipWs rest else c :: rest
  | [] => []

/-- Consume a run of decimal digits, returning them and the rest. -/
def takeDigits : List Char → List Nat × List Char
  | c :: rest =>
    match digitVal c with
    | some d =>
      let (ds, r) := takeDigits rest
      (d :: ds, r)
    | none => ([], c :: rest)
  | [] => ([], [])

/-- Numeric value of a digit run. -/
def digitsToNat (ds : List Nat) : Nat := ds.foldl (fun acc d => acc * 10 + d) 0

/-- Parse a JSON number literal: optional minus, integer part, optional
fraction and exponent.  A literal without fraction or exponent is an integer
number; otherwise it is a floating-point number (exact in this model). -/
def parseJsonNumber (cs : List Char) : Option (JNum × List Char) := do
  let (neg, r) ←
    match cs with
    | '-' :: r => pure (true, r)
    | _ => pure (false, cs)
  let (ids, r) := takeDigits r
  if ids.isEmpty then none else
  let intPart : Nat := digitsToNat ids
  let (fds, r) ←
    match r with
    | '.' :: r2 =>
      let (fds, r3) := takeDigits r2
      if fds.isEmpty then none else pure (fds, r3)
    | _ => pure ([], r)
  let (hasExp, expNeg, eds, r) ←
    match r with
    | 'e' :: r2 | 'E' :: r2 =>
      let (sgn, r3) :=
        match r2 with
        | '-' :: r4 => (true, r4)
        | '+' :: r4 => (false, r4)
        | _ => (false, r2)
      let (eds, r5) := takeDigits r3
      if eds.isEmpty then none else pure (true, sgn, eds, r5)
    | _ => pure (false, false, ([] : List Nat), r)
  if fds.isEmpty ∧ ¬hasExp then
    pure (.int (if neg then -(intPart : Int) else (intPart : Int)), r)
  else
    let mantissa : Rat := (intPart : Rat) + (digitsToNat fds : Rat) / (10 ^ fds.length : Rat)
    let signed : Rat := if neg then -mantissa else mantissa
    let expVal : Int := if expNeg then -(digitsToNat eds : Int) else (digitsToNat eds : Int)
    pure (.float (signed * (10 : Rat) ^ expVal), r)

/-- Parse a JSON string body after the opening quote, handling escapes. -/
def parseJsonString : Nat → List Char → Option (List Char × List Char)
  | 0, _ => none
  | _ + 1, [] => none
  | fuel + 1, c :: rest =>
    if c = '"' then some ([], rest)
    else if c = '\\' then
      match rest with
      | e :: rest2 =>
        let esc : Option (Char × List Char) :=
          if e = '"' then some ('"', rest2)
          else if e = '\\' then some ('\\', rest2)
          else if e = '/' then some ('/', rest2)
          else if e = 'b' then some (Char.ofNat 8, rest2)
          else if e = 'f' then some (Char.ofNat 12, rest2)
          else if e = 'n' then some ('\n', rest2)
          else if e = 'r' then some ('\r', rest2)
          else if e = 't' then some ('\t', rest2)
          else if e = 'u' then
            match rest2 with
            | h1 :: h2 :: h3 :: h4 :: rest3 => do
              let d1 ← hexVal h1.toNat
              let d2 ← hexVal h2.toNat
              let d3 ← hexVal h3.toNat
              let d4 ← hexVal h4.toNat
              let n := d1.val * 4096 + d2.val * 256 + d3.val * 16 + d4.val
              if 0xD800 ≤ n ∧ n ≤ 0xDFFF then none else pure (Char.ofNat n, rest3)
            | _ => none
          else none
        match esc with
        | some (ch, r) => do
          let (cs, r2) ← parseJsonString fuel r
          pure (ch :: cs, r2)
        | none => none
      | [] => none
    else if c.toNat < 0x20 then none
    else do
      let (cs, r) ← parseJsonString fuel rest
      pure (c :: cs, r)

mutual

/-- Parse one JSON value (fuelled recursion over the nesting depth). -/
def parseJsonValue : Nat → List Char → Option (Json × List Char)
  | 0, _ => none
  | fuel + 1, cs =>
    match skipWs cs with
    | 'n' :: 'u' :: 'l' :: 'l' :: r => some (.null, r)
    | 't' :: 'r' :: 'u' :: 'e' :: r => some (.bool true, r)
    | 'f' :: 'a' :: 'l' :: 's' :: 'e' :: r => some (.bool false, r)
    | '"' :: r => do
      let (cs, r2) ← parseJsonString (r.length + 1) r
      pure (.str (String.mk cs), r2)
    | '[' :: r =>
      (match skipWs r with
      | ']' :: r2 => some (.arr [], r2)
      | r2 => do
        let (xs, r3) ← parseJsonItems fuel r2
        pure (.arr xs, r3))
    | '{' :: r =>
      (match skipWs r with
      | '}' :: r2 => some (.obj [], r2)
      | r2 => do
        let (kvs, r3) ← parseJsonMembers fuel r2
        pure (.obj kvs, r3))
    | r => do
      let (n, r2) ← parseJsonNumber r
      pure (.num n, r2)

/-- Parse comma-separated array items up to the closing bracket. -/
def parseJsonItems : Nat → List Char → Option (List Json × List Char)
  | 0, _ => none
  | fuel + 1, cs => do
    let (x, r) ← parseJsonValue (fuel + 1) cs
    match skipWs r with
    | ',' :: r2 => do
      let (xs, r3) ← parseJsonItems fuel r2
      pure (x :: xs, r3)
    | ']' :: r2 => pure ([x], r2)
    | _ => none

/-- Parse comma-separated object members up to the closing brace. -/
def parseJsonMembers : Nat → List Char → Option (List (String × Json) × List Char)
  | 0, _ => none
  | fuel + 1, cs =>
    match skipWs cs with
    | '"' :: r => do
      let (k, r2) ← parseJsonString (r.length + 1) r
      match skipWs r2 with
      | ':' :: r3 => do
        let (v, r4) ← parseJsonValue (fuel + 1) r3
        match skipWs r4 with
        | ',' :: r5 => do
          let (kvs, r6) ← parseJsonMembers fuel r5
          pure ((String.mk k, v) :: kvs, r6)
        | '}' :: r5 => pure ([(String.mk k, v)], r5)
        | _ => none
      | _ => none
    | _ => none

end

/-- `serde_json::from_str` syntax layer: parse one complete JSON document,
requiring only whitespace to remain. -/
def jsonParseText (s : String) : Option Json := do
  let cs := s.toList
  let (j, r) ← parseJsonValue (cs.length + 1) cs
  match skipWs r with
  | [] => pure j
  | _ => none

/-! ## SimpleValue (src/value.rs) -/

/-- `SimpleValue` from src/value.rs: the untyped wire value. -/
inductive SimpleValue where
  | text (s : String)
  | number (n : Number)
  | boolean (b : Bool)
  | dateTime (dt : MDateTime)
  | date (d : MDate)
  | time (t : MTime)
  | listString (l : List String)
  | listNumber (l : List Number)
  | arrayUnknown (xs : List Json)
  | objectUnknown (j : Json)

namespace SimpleValue

/-- `SimpleValue::try_as_text`. -/
def try_as_text : SimpleValue → Except CoerceErr String
  | .text v => .ok v
  | _ => .error (.typeMismatch "Unable to convert to Text")

/-- `SimpleValue::try_as_number`. -/
def try_as_number : SimpleValue → Except CoerceErr Number
  | .number v => .ok v
  | _ => .error (.typeMismatch "Unable to convert to Number")

/-- `SimpleValue::try_as_boolean`. -/
def try_as_boolean : SimpleValue → Except CoerceErr Bool
  | .boolean v => .ok v
  | _ => .error (.typeMismatch "Unable to convert to Boolean")

/-- `SimpleValue::try_as_list_string`. -/
def try_as_list_string : SimpleValue → Except CoerceErr (List String)
  | .listString v => .ok v
  | _ => .error (.typeMismatch "Unable to convert to String List")

/-- `SimpleValue::try_as_list_number`. -/
def try_as_list_number : SimpleValue → Except CoerceErr (List Number)
  | .listNumber v => .ok v
  | _ => .error (.typeMismatch "Unable to convert to Number List")

/-- Decimal rendering of a nonnegative integer, as a character list. -/
def natChars (n : Nat) : List Char := (Nat.toDigits 10 n)

/-- `Display` of `Number` (the active variant's natural decimal form; the
float form is the rational's rendering in this model). -/
def numberToString (n : Number) : String :=
  match n with
  | .byte v => String.mk (natChars v.val)
  | .integer v =>
    if v < 0 then String.mk ('-' :: natChars v.natAbs) else String.mk (natChars v.natAbs)
  | .float q => toString q

/-- Zero-padded two-digit rendering. -/
def pad2 (n : Nat) : List Char :=
  if n < 10 then '0' :: natChars n else natChars n

/-- `Display` of an `OffsetDateTime` at UTC. -/
def dateTimeToString (dt : MDateTime) : String :=
  String.mk ((if dt.year < 0 then '-' :: natChars dt.year.natAbs else natChars dt.year.natAbs)
    ++ '-' :: pad2 dt.month ++ '-' :: pad2 dt.day ++ ' ' :: pad2 dt.hour
    ++ ':' :: pad2 dt.minute ++ ':' :: pad2 dt.second ++ " +00:00:00".toList)

/-- `Display` of a `Date`. -/
def dateToString (d : MDate) : String :=
  String.mk ((if d.year < 0 then '-' :: natChars d.year.natAbs else natChars d.year.natAbs)
    ++ '-' :: pad2 d.month ++ '-' :: pad2 d.day)

/-- `Display` of a `Time`. -/
def timeToString (t : MTime) : String :=
  String.mk (pad2 t.hour ++ ':' :: pad2 t.minute ++ ':' :: pad2 t.second)

/-- `SimpleValue::any_as_text`: renders the scalar variants to their string
form; fails for the list/array/object variants. -/
def any_as_text : SimpleValue → Except CoerceErr String
  | .text s => .ok s
  | .number n => .ok (numberToString n)
  | .boolean b => .ok (if b then "true" else "false")
  | .dateTime dt => .ok (dateTimeToString dt)
  | .date d => .ok (dateToString d)
  | .time t => .ok (timeToString t)
  | _ => .error (.typeMismatch "Unable to convert to String")

end SimpleValue

/-! ## Untagged serde codecs for Number and SimpleValue -/

/-- Untagged serialization of `Number` (`#[serde(untagged)]`): each variant
serializes its payload directly. -/
def numToJNum : Number → JNum
  | .byte v => .int v.val
  | .integer v => .int v
  | .float q => .float q

/-- Untagged deserialization of `Number`: try `Byte(u8)`, then
`Integer(i64)`, then `Float(f64)`, in declaration order.  An integral JSON
number in `0..=255` therefore lands in `Byte`. -/
def jnumToNumber : JNum → Number
  | .int n =>
    if h : 0 ≤ n ∧ n ≤ 255 then .byte ⟨n.toNat, by omega⟩ else .integer n
  | .float q => .float q

/-- Untagged deserialization of a `Number` from a JSON value. -/
def jsonToNumber : Json → Option Number
  | .num n => some (jnumToNumber n)
  | _ => none

/-- Untagged serialization of `SimpleValue`. -/
def svToJson : SimpleValue → Json
  | .text s => .str s
  | .number n => .num (numToJNum n)
  | .boolean b => .bool b
  | .dateTime dt =>
    .arr [.num (.int dt.year), .num (.int dt.month), .num (.int dt.day),
      .num (.int dt.hour), .num (.int dt.minute), .num (.int dt.second)]
  | .date d => .arr [.num (.int d.year), .num (.int d.month), .num (.int d.day)]
  | .time t =>
    .arr [.num (.int t.hour), .num (.int t.minute), .num (.int t.second),
      .num (.int t.nanos)]
  | .listString l => .arr (l.map .str)
  | .listNumber l => .arr (l.map (fun n => .num (numToJNum n)))
  | .arrayUnknown xs => .arr xs
  | .objectUnknown j => j

/-- All-strings view of a JSON array (the `ListString` attempt). -/
def jsonStrings : List Json → Option (List String)
  | [] => some []
  | .str s :: rest => do
    let ss ← jsonStrings rest
    pure (s :: ss)
  | _ => none

/-- All-numbers view of a JSON array (the `ListNumber` attempt). -/
def jsonNumbers : List Json → Option (List Number)
  | [] => some []
  | .num n :: rest => do
    let ns ← jsonNumbers rest
    pure (jnumToNumber n :: ns)
  | _ => none

/-- Untagged deserialization of `SimpleValue`: serde tries the variants in
declaration order (Text, Number, Boolean, DateTime, Date, Time, ListString,
ListNumber, ArrayUnknown, ObjectUnknown).  Strings are captured by `Text`
before the date/time variants can see them, and the final
`ObjectUnknown(serde_json::Value)` accepts any remaining value, so the
decode is total. -/
def svFromJson : Json → SimpleValue
  | .str s => .text s
  | .num n => .number (jnumToNumber n)
  | .bool b => .boolean b
  | .arr xs =>
    match jsonStrings xs with
    | some ss => .listString ss
    | none =>
      match jsonNumbers xs with
      | some ns => .listNumber ns
      | none => .arrayUnknown xs
  | .null => .objectUnknown .null
  | .obj kvs => .objectUnknown (.obj kvs)

/-! ## SchematicFieldType and SchematicFieldValue (src/schema.rs) -/

/-- `SchematicFieldType`: the closed catalog of 23 field kinds, in
declaration order (which fixes the stable integer codes 0..22). -/
inductive SchematicFieldType where
  | Text | Number | URL | Email | Address | Phone | Boolean
  | DateTime | Date | Time | RichContent | RichText
  | Reference | MultiReference | MediaGallery
  | Document | MultiDocument | Image | Video | Audio
  | Tags | Array | Object
  deriving DecidableEq, Repr

/-- `SchematicFieldValue`: the typed, schema-validated value. -/
inductive SchematicFieldValue where
  | text (s : String)
  | number (n : Number)
  | boolean (b : Bool)
  | url (u : MUrl)
  | email (s : String)
  | phone (s : String)
  | address (s : String)
  | dateTime (dt : MDateTime)
  | date (d : MDate)
  | time (t : MTime)
  | reference (u : Uuid)
  | multiReference (us : List Uuid)
  | listString (l : List String)
  | listNumber (l : List Number)
  | array (xs : List Json)
  | object (j : Json)

/-- The result of the text-shaped arm of `parse_value_bytes` on a byte
vector: `SimpleValue::Text` of the UTF-8 decoding, or an EncodingError. -/
def textShapedBytes (bytes : List (Fin 256)) : Except CoerceErr SimpleValue :=
  match utf8Decode bytes with
  | some cs => .ok (.text (String.mk cs))
  | none => .error .encodingError

/-- The result of the `Number` arm of `parse_value_bytes` on a byte vector:
`serde_json::from_slice::<SimpleValue>`, or a DecodeError. -/
def numberShapedBytes (bytes : List (Fin 256)) : Except CoerceErr SimpleValue :=
  match utf8Decode bytes with
  | none => .error .decodeError
  | some cs =>
    match jsonParseText (String.mk cs) with
    | none => .error .decodeError
    | some j => .ok (svFromJson j)

/-- The host's generic boolean parser (`str::parse::<bool>`): accepts exactly
the strings true and false. -/
def hostParseBool (s : String) : Option Bool :=
  if s = "true" then some true else if s = "false" then some false else none

namespace SchematicFieldType

/-- `SchematicFieldType::is_upload_file_type`. -/
def is_upload_file_type : SchematicFieldType → Bool
  | .Document | .MultiDocument | .Audio | .Image | .Video => true
  | _ => false

/-- `SchematicFieldType::max_bytes_length`. -/
def max_bytes_length : SchematicFieldType → Option Nat
  | .Text => some (1024 * 1024 * 1024)
  | .Email => some 100
  | .Number => some 10
  | .URL => some 1024
  | .Address => some 1024
  | .Phone => some 50
  | .Boolean => some 1
  | .DateTime => some 50
  | .Date => some 50
  | .Time => some 50
  | .RichContent => some (1024 * 1024 * 10)
  | .RichText => some (1024 * 1024 * 10)
  | .Reference => none
  | .MultiReference => none
  | .MediaGallery => some (1024 * 1024 * 100)
  | .Document => some (1024 * 1024 * 100)
  | .MultiDocument => some (1024 * 1024 * 100)
  | .Image => some (1024 * 1024 * 100)
  | .Video => some (1024 * 1024 * 100)
  | .Audio => some (1024 * 1024 * 100)
  | .Tags => none
  | .Array => none
  | .Object => none

/-- `SchematicFieldType::parse_value_bytes(bytes)`: classify raw bytes by the
type's storage shape.  The `Number` arm runs `serde_json::from_slice` into
`SimpleValue` (a `DecodeError` when the bytes are not a JSON document); the
text-shaped arms run `String::from_utf8` (an `EncodingError` on invalid
UTF-8); the binary arms always succeed with one `Number::Byte` per input
byte; the remaining four arms are the `todo!` branch. -/
def parse_value_bytes (t : SchematicFieldType) (bytes : List (Fin 256)) :
    Except CoerceErr SimpleValue :=
  match t with
  | .Number =>
    match utf8Decode bytes with
    | none => .error .decodeError
    | some cs =>
      match jsonParseText (String.mk cs) with
      | none => .error .decodeError
      | some j => .ok (svFromJson j)
  | .Text | .URL | .Email | .Address | .Phone | .Boolean | .DateTime
  | .Date | .Time | .RichContent | .RichText | .Reference | .Array | .Object =>
    match utf8Decode bytes with
    | some cs => .ok (.text (String.mk cs))
    | none => .error .encodingError
  | .Document | .Image | .Video | .Audio =>
    .ok (.listNumber (bytes.map (fun b => Number.byte b)))
  | .MultiReference | .MediaGallery | .MultiDocument | .Tags =>
    .error .notImplemented

/-- `SchematicFieldType::parse_value(received)`: the canonical coercion from
a `SimpleValue` to a `SchematicFieldValue`, one arm per field type, following
src/schema.rs lines 383-467. -/
def parse_value (t : SchematicFieldType) (received : SimpleValue) :
    Except CoerceErr SchematicFieldValue :=
  match t with
  | .Text => do
    let s ← received.try_as_text
    pure (.text s)
  | .Number => do
    let n ← received.try_as_number
    pure (.number n)
  | .URL => do
    let s ← received.try_as_text
    match urlParse s with
    | some u => pure (.url u)
    | none => .error .formatError
  | .Email => do
    let s ← received.try_as_text
    pure (.email s)
  | .Phone => do
    let s ← received.try_as_text
    pure (.phone s)
  | .Address => do
    let s ← received.try_as_text
    pure (.address s)
  | .Boolean => do
    let s ← received.try_as_text
    match s with
    | "1" | "on" | "true" => pure (.boolean true)
    | "0" | "off" | "false" => pure (.boolean false)
    | v =>
      match hostParseBool v with
      | some b => pure (.boolean b)
      | none => .error .formatError
  | .DateTime => do
    let s ← received.any_as_text
    match parseDateTimeMinute s with
    | some v => pure (.dateTime v)
    | none =>
      match parseDateTimeSecond s with
      | some v => pure (.dateTime v)
      | none => .error .formatError
  | .Date => do
    let s ← received.any_as_text
    match parseDateStr s with
    | some d => pure (.date d)
    | none => .error .formatError
  | .Time => do
    let s ← received.any_as_text
    match parseTimePlain s with
    | some v => pure (.time v)
    | none =>
      match parseTimeSubsecond s with
      | some v => pure (.time v)
      | none => .error .formatError
  | .RichContent => do
    let s ← received.try_as_text
    pure (.text s)
  | .RichText => do
    let s ← received.try_as_text
    pure (.text s)
  | .Reference => do
    let s ← received.try_as_text
    match parseUuidStr s with
    | some u => pure (.reference u)
    | none => .error .formatError
  | .MultiReference => do
    let l ← received.try_as_list_string
    match collectOption parseUuidStr l with
    | some us => pure (.multiReference us)
    | none => .error .formatError
  | .MediaGallery => do
    let l ← received.try_as_list_string
    match collectOption parseUuidStr l with
    | some us => pure (.multiReference us)
    | none => .error .formatError
  | .Document | .Image | .Video | .Audio => do
    let l ← received.try_as_list_number
    pure (.listNumber l)
  | .MultiDocument => .error .notImplemented
  | .Tags => do
    let l ← received.try_as_list_number
    pure (.listNumber l)
  | .Array =>
    match received with
    | .text v =>
      match jsonParseText v with
      | some (.arr xs) => .ok (.array xs)
      | some _ => .error .decodeError
      | none => .error .decodeError
    | v =>
      match svToJson v with
      | .arr xs => .ok (.array xs)
      | _ => .error .decodeError
  | .Object =>
    match received with
    | .text v =>
      match jsonParseText v with
      | some j => .ok (.object j)
      | none => .error .decodeError
    | v => .ok (.object (svToJson v))

/-- `SchematicFieldType::as_name`. -/
def as_name : SchematicFieldType → String
  | .Text => "Text"
  | .Number => "Number"
  | .URL => "URL"
  | .Email => "Email"
  | .Address => "Address"
  | .Phone => "Phone"
  | .Boolean => "True/False"
  | .DateTime => "Date & Time"
  | .Date => "Date"
  | .Time => "Time"
  | .RichContent => "Rich Content"
  | .RichText => "Rich Text"
  | .Reference => "Reference"
  | .MultiReference => "Multi Reference"
  | .MediaGallery => "Media Gallery"
  | .Document => "Document"
  | .MultiDocument => "Multi Document"
  | .Image => "Image"
  | .Video => "Video"
  | .Audio => "Audio"
  | .Tags => "Tags"
  | .Array => "Array"
  | .Object => "Object"

end SchematicFieldType

/-! ## The tagged wire codec of SchematicFieldValue
(`#[serde(tag = "type", content = "value")]`) -/

namespace SchematicFieldValue

/-- The variant name used as the wire tag. -/
def tagName : SchematicFieldValue → String
  | .text _ => "Text"
  | .number _ => "Number"
  | .boolean _ => "Boolean"
  | .url _ => "Url"
  | .email _ => "Email"
  | .phone _ => "Phone"
  | .address _ => "Address"
  | .dateTime _ => "DateTime"
  | .date _ => "Date"
  | .time _ => "Time"
  | .reference _ => "Reference"
  | .multiReference _ => "MultiReference"
  | .listString _ => "ListString"
  | .listNumber _ => "ListNumber"
  | .array _ => "Array"
  | .object _ => "Object"

/-- Serialization of a `MDateTime` payload (the time crate's self-inverse
serde codec, modelled component-wise). -/
def dtToJson (dt : MDateTime) : Json :=
  .arr [.num (.int dt.year), .num (.int dt.month), .num (.int dt.day),
    .num (.int dt.hour), .num (.int dt.minute), .num (.int dt.second)]

/-- Deserialization of a `MDateTime` payload. -/
def dtFromJson : Json → Option MDateTime
  | .arr [.num (.int y), .num (.int mo), .num (.int d),
      .num (.int h), .num (.int mi), .num (.int s)] =>
    if 0 ≤ mo ∧ 0 ≤ d ∧ 0 ≤ h ∧ 0 ≤ mi ∧ 0 ≤ s then
      some ⟨y, mo.toNat, d.toNat, h.toNat, mi.toNat, s.toNat⟩
    else none
  | _ => none

/-- Serialization of a `MDate` payload. -/
def dToJson (d : MDate) : Json :=
  .arr [.num (.int d.year), .num (.int d.month), .num (.int d.day)]

/-- Deserialization of a `MDate` payload. -/
def dFromJson : Json → Option MDate
  | .arr [.num (.int y), .num (.int mo), .num (.int d)] =>
    if 0 ≤ mo ∧ 0 ≤ d then some ⟨y, mo.toNat, d.toNat⟩ else none
  | _ => none

/-- Serialization of a `MTime` payload. -/
def tToJson (t : MTime) : Json :=
  .arr [.num (.int t.hour), .num (.int t.minute), .num (.int t.second),
    .num (.int t.nanos)]

/-- Deserialization of a `MTime` payload. -/
def tFromJson : Json → Option MTime
  | .arr [.num (.int h), .num (.int mi), .num (.int s), .num (.int ns)] =>
    if 0 ≤ h ∧ 0 ≤ mi ∧ 0 ≤ s ∧ 0 ≤ ns then
      some ⟨h.toNat, mi.toNat, s.toNat, ns.toNat⟩
    else none
  | _ => none

/-- Serialization of each variant's payload. -/
def payload : SchematicFieldValue → Json
  | .text s => .str s
  | .number n => .num (numToJNum n)
  | .boolean b => .bool b
  | .url u => .str u.val
  | .email s => .str s
  | .phone s => .str s
  | .address s => .str s
  | .dateTime dt => dtToJson dt
  | .date d => dToJson d
  | .time t => tToJson t
  | .reference u => .str (formatUuid u)
  | .multiReference us => .arr (us.map (fun u => .str (formatUuid u)))
  | .listString l => .arr (l.map .str)
  | .listNumber l => .arr (l.map (fun n => .num (numToJNum n)))
  | .array xs => .arr xs
  | .object j => j

/-- `Serialize` of `SchematicFieldValue`: the adjacently tagged object. -/
def encodeSFV (v : SchematicFieldValue) : Json :=
  .obj [("type", .str v.tagName), ("value", v.payload)]

/-- Expect a JSON string payload. -/
def asStr : Json → Option String
  | .str s => some s
  | _ => none

/-- Expect a JSON array payload. -/
def asArr : Json → Option (List Json)
  | .arr xs => some xs
  | _ => none

/-- Deserialize one variant's payload given its wire tag. -/
def decodeVariant (t : String) (pv : Json) : Option SchematicFieldValue :=
  match t with
  | "Text" => (asStr pv).map .text
  | "Number" => (jsonToNumber pv).map .number
  | "Boolean" =>
    match pv with
    | .bool b => some (.boolean b)
    | _ => none
  | "Url" => do
    let s ← asStr pv
    let u ← urlParse s
    pure (.url u)
  | "Email" => (asStr pv).map .email
  | "Phone" => (asStr pv).map .phone
  | "Address" => (asStr pv).map .address
  | "DateTime" => (dtFromJson pv).map .dateTime
  | "Date" => (dFromJson pv).map .date
  | "Time" => (tFromJson pv).map .time
  | "Reference" => do
    let s ← asStr pv
    let u ← parseUuidStr s
    pure (.reference u)
  | "MultiReference" => do
    let xs ← asArr pv
    let us ← collectOption (fun x => (asStr x).bind parseUuidStr) xs
    pure (.multiReference us)
  | "ListString" => do
    let xs ← asArr pv
    let ss ← collectOption asStr xs
    pure (.listString ss)
  | "ListNumber" => do
    let xs ← asArr pv
    let ns ← collectOption jsonToNumber xs
    pure (.listNumber ns)
  | "Array" => (asArr pv).map .array
  | "Object" => some (.object pv)
  | _ => none

/-- Look up a field of a JSON object (first occurrence). -/
def jsonField (k : String) : List (String × Json) → Option Json
  | [] => none
  | (k2, v) :: rest => if k2 = k then some v else jsonField k rest

/-- `Deserialize` of `SchematicFieldValue`: read the adjacent `type` /
`value` fields and dispatch on the tag. -/
def decodeSFV (j : Json) : Option SchematicFieldValue :=
  match j with
  | .obj kvs => do
    let tj ← jsonField "type" kvs
    let t ← asStr tj
    let pv ← jsonField "value" kvs
    decodeVariant t pv
  | _ => none

/-- The value the wire round trip actually produces for a `Number` payload:
untagged `Number` deserialization widens an integral payload in `0..=255`
into the `Byte` variant. -/
def canonNumber (n : Number) : Number :=
  match n with
  | .integer v => if h : 0 ≤ v ∧ v ≤ 255 then .byte ⟨v.toNat, by omega⟩ else .integer v
  | x => x

/-- The value the wire round trip produces: `canonNumber` applied to every
`Number` payload, identity elsewhere. -/
def canonSFV : SchematicFieldValue → SchematicFieldValue
  | .number n => .number (canonNumber n)
  | .listNumber l => .listNumber (l.map canonNumber)
  | v => v

end SchematicFieldValue

/-! ## SchematicFieldKey (src/schema.rs lines 134-209) -/

/-- `SchematicFieldKey`: four reserved system keys plus the open `Other` /
`OtherStatic` cases. -/
inductive SchematicFieldKey where
  | Id
  | Owner
  | CreatedAt
  | UpdatedAt
  | Other (s : String)
  | OtherStatic (s : String)
  deriving DecidableEq, Repr

namespace SchematicFieldKey

/-- `SchematicFieldKey::as_str`. -/
def as_str : SchematicFieldKey → String
  | .Id => "_id"
  | .Owner => "_owner"
  | .CreatedAt => "_createdAt"
  | .UpdatedAt => "_updatedAt"
  | .Other s => s
  | .OtherStatic s => s

/-- The crate's `PartialEq` for `SchematicFieldKey`: string-form equality. -/
def keyEq (a b : SchematicFieldKey) : Bool := a.as_str == b.as_str

/-- The crate's `Hash` for `SchematicFieldKey`: it hashes `as_str()`, so the
hash under any hasher is a function of the string form. -/
def keyHash (hasher : String → Nat) (k : SchematicFieldKey) : Nat :=
  hasher k.as_str

/-- A map lookup keyed by `SchematicFieldKey` equality, as a `HashMap` keyed
by this type behaves on its equality contract. -/
def keyLookup {α : Type} (m : List (SchematicFieldKey × α)) (k : SchematicFieldKey) :
    Option α :=
  (m.find? (fun p => keyEq p.1 k)).map Prod.snd

/-- `Deserialize` of `SchematicFieldKey`: the four reserved literals map to
their named variants, anything else to `Other`. -/
def fromString (s : String) : SchematicFieldKey :=
  match s with
  | "_id" => .Id
  | "_owner" => .Owner
  | "_createdAt" => .CreatedAt
  | "_updatedAt" => .UpdatedAt
  | _ => .Other s

end SchematicFieldKey

/-! ## UuidType (src/uuid.rs lines 75-141) -/

/-- `WebsitePublicId` and `AddonUuid` are newtype wrappers around `Uuid`
generated by a `create_uuid`-style macro whose definition is not part of
src/. Modelled from the spec: a tagged entity identity is a UUID
disambiguated by owner kind, and the bare wrapper parses/formats exactly as
its underlying UUID, so both wrappers are represented by `Uuid` itself and
`WebsitePublicId::from_str` is UUID string parsing. -/
def websitePublicIdFromStr (s : String) : Option Uuid := parseUuidStr s

/-- `UuidType` from src/uuid.rs: identity disambiguated by owner kind. -/
inductive UuidType where
  | site (u : Uuid)
  | addon (u : Uuid)
  deriving DecidableEq

namespace UuidType

/-- `ToString` of `UuidType`. -/
def toWireString : UuidType → String
  | .site u => "s:" ++ formatUuid u
  | .addon u => "a:" ++ formatUuid u

/-- Failure modes of `UuidType::deserialize`: a serde custom error, or a
panic (out-of-bounds indexing / slicing, or `Option::unwrap` on `None`). -/
inductive DeFail where
  | custom (msg : String)
  | panicked (msg : String)
  deriving DecidableEq, Repr

/-- `Uuid::try_parse_ascii` over a byte slice. -/
def tryParseAscii (bs : List Nat) : Option Uuid := parseUuidList bs

/-- `UuidType::deserialize` on an already-decoded JSON string, following
src/uuid.rs lines 107-132: first try the whole value as a bare UUID
(`Site`); otherwise dispatch on the first byte, `s`/`a` parsing the bytes
from index 2 with `.unwrap()` (a panic when that parse fails, as is the
indexing when the string is shorter than the slice bounds), and any other
first byte failing with the custom error message Unknown. -/
def deserialize (value : String) : Except DeFail UuidType :=
  match websitePublicIdFromStr value with
  | some u => .ok (.site u)
  | none =>
    let bytes := strBytes value
    match bytes with
    | [] => .error (.panicked "index out of bounds")
    | b :: _ =>
      if b = 115 then
        if 2 ≤ bytes.length then
          match tryParseAscii (bytes.drop 2) with
          | some u => .ok (.site u)
          | none => .error (.panicked "called unwrap on a None value")
        else .error (.panicked "slice range out of bounds")
      else if b = 97 then
        if 2 ≤ bytes.length then
          match tryParseAscii (bytes.drop 2) with
          | some u => .ok (.addon u)
          | none => .error (.panicked "called unwrap on a None value")
        else .error (.panicked "slice range out of bounds")
      else .error (.custom "Unknown")

end UuidType

/-! ## Supporting lemmas -/

/-- Hex rendering inverts through `hexVal`. -/
theorem hexVal_hexChar : ∀ d : Fin 16, hexVal (hexChar d).toNat = some d := by decide

/-- `takeHex` consumes exactly the rendered digits. -/
theorem takeHex_append (l : List (Fin 16)) (rest : List Nat) :
    takeHex l.length (l.map (fun d => (hexChar d).toNat) ++ rest) = some (l, rest) := by
  induction l with
  | nil => simp [takeHex]
  | cons d ds ih => simp [takeHex, hexVal_hexChar, ih]

/-- `takeHex` at a stated width. -/
theorem takeHex_append_of_length {n : Nat} {l : List (Fin 16)} (h : l.length = n)
    (rest : List Nat) :
    takeHex n (l.map (fun d => (hexChar d).toNat) ++ rest) = some (l, rest) := by
  subst h; exact takeHex_append l rest

/-- Parsing the canonical rendering of a UUID returns the same UUID. -/
theorem parseUuid_format (u : Uuid) : parseUuidStr (formatUuid u) = some u := by
  obtain ⟨l, hl⟩ := u
  have hla : (l.take 8).length = 8 := by simp [hl]
  have hlb : ((l.drop 8).take 4).length = 4 := by simp [hl]
  have hlc : (((l.drop 8).drop 4).take 4).length = 4 := by simp [hl]
  have hld : ((((l.drop 8).drop 4).drop 4).take 4).length = 4 := by simp [hl]
  have hle : ((((l.drop 8).drop 4).drop 4).drop 4).length = 12 := by simp [hl]
  have hsplit : l.take 8 ++ ((l.drop 8).take 4 ++ (((l.drop 8).drop 4).take 4 ++
      ((((l.drop 8).drop 4).drop 4).take 4 ++ (((l.drop 8).drop 4).drop 4).drop 4))) = l := by
    rw [List.take_append_drop 4 (((l.drop 8).drop 4).drop 4),
      List.take_append_drop 4 ((l.drop 8).drop 4), List.take_append_drop 4 (l.drop 8),
      List.take_append_drop 8 l]
  have hchars : (formatUuid ⟨l, hl⟩).toList.map Char.toNat =
      (l.take 8).map (fun x => (hexChar x).toNat) ++ 45 ::
        (((l.drop 8).take 4).map (fun x => (hexChar x).toNat) ++ 45 ::
          ((((l.drop 8).drop 4).take 4).map (fun x => (hexChar x).toNat) ++ 45 ::
            (((((l.drop 8).drop 4).drop 4).take 4).map (fun x => (hexChar x).toNat) ++ 45 ::
              ((((l.drop 8).drop 4).drop 4).drop 4).map (fun x => (hexChar x).toNat)))) := by
    show (uuidHyphenated l).map Char.toNat = _
    simp only [uuidHyphenated, List.map_append, List.map_cons, List.map_map,
      Function.comp_def]
    rfl
  rw [parseUuidStr, hchars, parseUuidList]
  rw [takeHex_append_of_length hla]
  simp only [Option.bind_eq_bind, Option.some_bind]
  rw [takeHex_append_of_length hlb]
  simp only [Option.some_bind]
  rw [takeHex_append_of_length hlc]
  simp only [Option.some_bind]
  rw [takeHex_append_of_length hld]
  simp only [Option.some_bind]
  rw [show ((((l.drop 8).drop 4).drop 4).drop 4).map (fun x => (hexChar x).toNat) =
    ((((l.drop 8).drop 4).drop 4).drop 4).map (fun x => (hexChar x).toNat) ++ [] by simp]
  rw [takeHex_append_of_length hle]
  simp only [Option.some_bind]
  have hlen : (l.take 8 ++ (l.drop 8).take 4 ++ ((l.drop 8).drop 4).take 4 ++
      (((l.drop 8).drop 4).drop 4).take 4 ++ (((l.drop 8).drop 4).drop 4).drop 4).length = 32 := by
    simp only [List.length_append, hla, hlb, hlc, hld, hle]
  rw [dif_pos hlen]
  refine congrArg some (Subtype.ext ?_)
  simpa [List.append_assoc] using hsplit

/-- `collectOption` over a rendered list recovers the images pointwise. -/
theorem collectOption_map_of_inverse {α β γ : Type} (f : α → β) (g : β → Option γ)
    (h : α → γ) (hfg : ∀ a, g (f a) = some (h a)) (l : List α) :
    collectOption g (l.map f) = some (l.map h) := by
  induction l with
  | nil => rfl
  | cons a as ih => simp [collectOption, hfg, ih]

/-- Untagged `Number` deserialization of the untagged `Number` serialization:
the `Byte` attempt comes first, so an `Integer` payload in `0..=255` comes
back as `Byte` — which is what `canonNumber` records. -/
theorem jnumToNumber_numToJNum (n : Number) :
    jnumToNumber (numToJNum n) = SchematicFieldValue.canonNumber n := by
  cases n with
  | byte v =>
    simp only [numToJNum, jnumToNumber, SchematicFieldValue.canonNumber]
    rw [dif_pos (by constructor <;> omega)]
    congr 1
  | integer v => rfl
  | float q => rfl

/-- The `type` field of the encoded object. -/
theorem jsonField_type (tn : String) (pv : Json) :
    SchematicFieldValue.jsonField "type" [("type", Json.str tn), ("value", pv)] =
      some (.str tn) := by
  simp [SchematicFieldValue.jsonField]

/-- The `value` field of the encoded object. -/
theorem jsonField_value (tn : String) (pv : Json) :
    SchematicFieldValue.jsonField "value" [("type", Json.str tn), ("value", pv)] =
      some pv := by
  simp [SchematicFieldValue.jsonField]

namespace SchematicFieldValue

/-- Decoding an adjacently tagged object dispatches on its tag. -/
theorem decodeSFV_obj (tn : String) (pv : Json) :
    decodeSFV (.obj [("type", .str tn), ("value", pv)]) = decodeVariant tn pv := by
  simp [decodeSFV, jsonField_type, jsonField_value, asStr]

/-- The date-time payload codec is self-inverse. -/
theorem dtFromJson_dtToJson (dt : MDateTime) : dtFromJson (dtToJson dt) = some dt := by
  simp [dtToJson, dtFromJson, Int.natCast_nonneg]

/-- The date payload codec is self-inverse. -/
theorem dFromJson_dToJson (d : MDate) : dFromJson (dToJson d) = some d := by
  simp [dToJson, dFromJson, Int.natCast_nonneg]

/-- The time payload codec is self-inverse. -/
theorem tFromJson_tToJson (t : MTime) : tFromJson (tToJson t) = some t := by
  simp [tToJson, tFromJson, Int.natCast_nonneg]

/-- Decoding the encoding of any `SchematicFieldValue` succeeds, returning
`canonSFV` of the original: identical except that `Number::Integer` payloads
in `0..=255` come back as `Number::Byte` of the same numeric value. -/
theorem decodeSFV_encodeSFV (v : SchematicFieldValue) :
    decodeSFV (encodeSFV v) = some (canonSFV v) := by
  cases v with
  | text s => simp [encodeSFV, tagName, payload, decodeSFV_obj, decodeVariant, asStr, canonSFV]
  | number n =>
    simp [encodeSFV, tagName, payload, decodeSFV_obj, decodeVariant, jsonToNumber,
      jnumToNumber_numToJNum, canonSFV]
  | boolean b => simp [encodeSFV, tagName, payload, decodeSFV_obj, decodeVariant, canonSFV]
  | url u =>
    simp [encodeSFV, tagName, payload, decodeSFV_obj, decodeVariant, asStr, urlParse,
      u.property, canonSFV]
  | email s => simp [encodeSFV, tagName, payload, decodeSFV_obj, decodeVariant, asStr, canonSFV]
  | phone s => simp [encodeSFV, tagName, payload, decodeSFV_obj, decodeVariant, asStr, canonSFV]
  | address s => simp [encodeSFV, tagName, payload, decodeSFV_obj, decodeVariant, asStr, canonSFV]
  | dateTime dt =>
    simp [encodeSFV, tagName, payload, decodeSFV_obj, decodeVariant, dtFromJson_dtToJson,
      canonSFV]
  | date d =>
    simp [encodeSFV, tagName, payload, decodeSFV_obj, decodeVariant, dFromJson_dToJson, canonSFV]
  | time t =>
    simp [encodeSFV, tagName, payload, decodeSFV_obj, decodeVariant, tFromJson_tToJson, canonSFV]
  | reference u =>
    simp [encodeSFV, tagName, payload, decodeSFV_obj, decodeVariant, asStr, parseUuid_format,
      canonSFV]
  | multiReference us =>
    simp only [encodeSFV, tagName, payload, decodeSFV_obj, decodeVariant, asArr,
      Option.some_bind, Option.bind_eq_bind]
    rw [collectOption_map_of_inverse (fun u => Json.str (formatUuid u))
      (fun x => (asStr x).bind parseUuidStr) id
      (fun u => by simp [asStr, parseUuid_format u])]
    simp [canonSFV]
  | listString l =>
    simp only [encodeSFV, tagName, payload, decodeSFV_obj, decodeVariant, asArr,
      Option.some_bind, Option.bind_eq_bind]
    rw [collectOption_map_of_inverse Json.str asStr id (fun s => by simp [asStr])]
    simp [canonSFV]
  | listNumber l =>
    simp only [encodeSFV, tagName, payload, decodeSFV_obj, decodeVariant, asArr,
      Option.some_bind, Option.bind_eq_bind]
    rw [collectOption_map_of_inverse (fun n => Json.num (numToJNum n)) jsonToNumber
      canonNumber (fun n => by simp [jsonToNumber, jnumToNumber_numToJNum n])]
    simp [canonSFV]
  | array xs => simp [encodeSFV, tagName, payload, decodeSFV_obj, decodeVariant, asArr, canonSFV]
  | object j => simp [encodeSFV, tagName, payload, decodeSFV_obj, decodeVariant, canonSFV]

end SchematicFieldValue

/-! ## Claim C1 -/

/-- Claim C1, refuted: `Number`'s derived equality and ordering do NOT
compare the widened numeric value across tags.  `Byte(3) == Integer(3)` is
false even though both convert to the same `i64` value, and `Byte(5)`
orders below `Integer(3)` although `5 > 3` numerically. -/
theorem number_cmp_by_value_refuted :
    Number.beqNumber (.byte 3) (.integer 3) = false ∧
      Number.convert_i64 (.byte 3) = Number.convert_i64 (.integer 3) ∧
      Number.partialCmp (.byte 5) (.integer 3) = some .lt ∧
      Number.convert_i64 (.integer 3) < Number.convert_i64 (.byte 5) := by
  refine ⟨rfl, rfl, rfl, by decide⟩

/-- Claim C1, as amended: the derived `PartialEq`/`PartialOrd` of `Number`
are tag-first — two values with different variant tags are never equal, and
their ordering is the ordering of the tags (`Byte < Integer < Float`)
regardless of the contained numeric values; payloads are compared only
within a single tag. -/
theorem number_cmp_tag_first (a b : Number) (h : a.tag ≠ b.tag) :
    Number.beqNumber a b = false ∧
      Number.partialCmp a b = some (compare a.tag b.tag) := by
  cases a <;> cases b <;> simp_all [Number.tag, Number.beqNumber, Number.partialCmp]

/-- Witness for `number_cmp_tag_first` at `Byte(3)` / `Integer(3)`. -/
theorem number_cmp_tag_first_witness :
    Number.beqNumber (.byte 3) (.integer 3) = false ∧
      Number.partialCmp (.byte 3) (.integer 3) =
        some (compare (Number.tag (.byte 3)) (Number.tag (.integer 3))) :=
  number_cmp_tag_first (.byte 3) (.integer 3) (by decide)

/-! ## Claim C3 -/

/-- Claim C3: for MultiReference, MediaGallery, MultiDocument and Tags, the
byte path (`parse_value_bytes`) — and `parse_value` for MultiDocument —
surfaces the not-implemented fault (the `todo!` branch), which is distinct
from the TypeMismatch / FormatError / DecodeError / EncodingError failure
kinds, and is not a silently returned default value. -/
theorem unsupported_types_surface_not_implemented :
    (∀ bytes : List (Fin 256),
      SchematicFieldType.parse_value_bytes .MultiReference bytes = .error .notImplemented ∧
      SchematicFieldType.parse_value_bytes .MediaGallery bytes = .error .notImplemented ∧
      SchematicFieldType.parse_value_bytes .MultiDocument bytes = .error .notImplemented ∧
      SchematicFieldType.parse_value_bytes .Tags bytes = .error .notImplemented) ∧
    (∀ v : SimpleValue,
      SchematicFieldType.parse_value .MultiDocument v = .error .notImplemented) ∧
    (∀ msg, CoerceErr.notImplemented ≠ .typeMismatch msg) ∧
    CoerceErr.notImplemented ≠ .formatError ∧
    CoerceErr.notImplemented ≠ .decodeError ∧
    CoerceErr.notImplemented ≠ .encodingError := by
  refine ⟨fun bytes => ⟨rfl, rfl, rfl, rfl⟩, fun v => rfl, fun msg => ?_, ?_, ?_, ?_⟩ <;>
    intro h <;> cases h

/-- Witness for `unsupported_types_surface_not_implemented`: the Tags byte
path and the MultiDocument coercion both surface the not-implemented
fault on concrete inputs. -/
theorem unsupported_types_surface_not_implemented_witness :
    SchematicFieldType.parse_value_bytes .Tags [] = .error .notImplemented ∧
      SchematicFieldType.parse_value .MultiDocument (.text "x") = .error .notImplemented :=
  ⟨(unsupported_types_surface_not_implemented.1 []).2.2.2,
    unsupported_types_surface_not_implemented.2.1 (.text "x")⟩

/-! ## Claim C2 -/

/-- Claim C2, refuted: the wire round trip is not the identity on every
payload.  `Number` is an untagged union whose decoder tries `Byte(u8)`
first, so the tagged wire form of `Number::Integer(5)` decodes to
`Number::Byte(5)`, which is a different value under the `Number` equality
derived in src/value.rs. -/
theorem sfv_wire_roundtrip_refuted :
    SchematicFieldValue.decodeSFV
        (SchematicFieldValue.encodeSFV (.number (.integer 5))) =
      some (.number (.byte 5)) ∧
      SchematicFieldValue.number (.byte 5) ≠ .number (.integer 5) ∧
      Number.beqNumber (.byte 5) (.integer 5) = false := by
  refine ⟨?_, ?_, rfl⟩
  · rw [SchematicFieldValue.decodeSFV_encodeSFV]
    rfl
  · intro h
    injection h with h2
    cases h2

/-- Claim C2, as amended: decoding the tagged wire form of any
`SchematicFieldValue` succeeds and yields `canonSFV` of the original —
identical to the original except that a `Number::Integer` payload whose
value lies in `0..=255` (at top level or inside `ListNumber`) comes back as
`Number::Byte` of the same numeric value; the round trip is the identity
exactly on values already in that canonical form. -/
theorem sfv_wire_roundtrip_canon (v : SchematicFieldValue) :
    SchematicFieldValue.decodeSFV (SchematicFieldValue.encodeSFV v) =
      some (SchematicFieldValue.canonSFV v) ∧
    (SchematicFieldValue.decodeSFV (SchematicFieldValue.encodeSFV v) = some v ↔
      SchematicFieldValue.canonSFV v = v) := by
  refine ⟨SchematicFieldValue.decodeSFV_encodeSFV v, ?_⟩
  rw [SchematicFieldValue.decodeSFV_encodeSFV v]
  exact ⟨fun h => Option.some.inj h, fun h => by rw [h]⟩

/-! ## Claim C4 -/

/-- Claim C4: `parse_value(Boolean, v)` extracts the text payload of `v`
(a TypeMismatch when `v` is not `Text`) and maps, case-sensitively, exactly
the strings 1 / on / true to `Boolean(true)` and 0 / off / false to
`Boolean(false)`; every other string falls through to the host's generic
boolean parser, whose remaining accepted forms are already covered, so it
fails with a FormatError — in particular on the text maybe. -/
theorem boolean_parse_spec :
    (∀ s : String,
      SchematicFieldType.parse_value .Boolean (.text s) =
        (if s = "1" ∨ s = "on" ∨ s = "true" then .ok (.boolean true)
         else if s = "0" ∨ s = "off" ∨ s = "false" then .ok (.boolean false)
         else .error .formatError)) ∧
    (∀ v : SimpleValue, (∀ s, v ≠ .text s) →
      SchematicFieldType.parse_value .Boolean v =
        .error (.typeMismatch "Unable to convert to Text")) ∧
    SchematicFieldType.parse_value .Boolean (.text "maybe") = .error .formatError ∧
    SchematicFieldType.parse_value .Boolean (.text "on") = .ok (.boolean true) := by
  refine ⟨?_, ?_, rfl, rfl⟩
  · intro s
    show (match s with
      | "1" | "on" | "true" => Except.ok (SchematicFieldValue.boolean true)
      | "0" | "off" | "false" => Except.ok (SchematicFieldValue.boolean false)
      | v =>
        match hostParseBool v with
        | some b => Except.ok (SchematicFieldValue.boolean b)
        | none => Except.error CoerceErr.formatError) = _
    split
    · simp
    · simp
    · simp
    · simp
    · simp
    · simp
    · rename_i v h1 h2 h3 h4 h5 h6
      have n1 : ¬(s = "1" ∨ s = "on" ∨ s = "true") := by
        rintro (h | h | h)
        exacts [h1 h, h2 h, h3 h]
      have n2 : ¬(s = "0" ∨ s = "off" ∨ s = "false") := by
        rintro (h | h | h)
        exacts [h4 h, h5 h, h6 h]
      rw [if_neg n1, if_neg n2, hostParseBool, if_neg (fun h => h3 h), if_neg (fun h => h6 h)]
  · intro v hv
    cases v with
    | text s => exact absurd rfl (hv s)
    | number n => rfl
    | boolean b => rfl
    | dateTime dt => rfl
    | date d => rfl
    | time t => rfl
    | listString l => rfl
    | listNumber l => rfl
    | arrayUnknown xs => rfl
    | objectUnknown j => rfl

/-! ## Claim C5 -/

/-- Claim C5: `parse_value(DateTime, v)` renders `v` to text and tries the
minute-precision pattern `YYYY-MM-DDTHH:MM` first, falling back to the
second-precision pattern `YYYY-MM-DDTHH:MM:SS`, interpreting the parsed
local time as UTC; it fails with a FormatError exactly when both patterns
fail.  Both example texts succeed, the first with a zero seconds
component. -/
theorem datetime_parse_spec :
    (∀ s : String,
      SchematicFieldType.parse_value .DateTime (.text s) =
        (match parseDateTimeMinute s with
         | some d => .ok (.dateTime d)
         | none =>
           match parseDateTimeSecond s with
           | some d => .ok (.dateTime d)
           | none => .error .formatError)) ∧
    SchematicFieldType.parse_value .DateTime (.text "2024-01-15T10:30") =
      .ok (.dateTime ⟨2024, 1, 15, 10, 30, 0⟩) ∧
    SchematicFieldType.parse_value .DateTime (.text "2024-01-15T10:30:45") =
      .ok (.dateTime ⟨2024, 1, 15, 10, 30, 45⟩) ∧
    (∀ s : String,
      SchematicFieldType.parse_value .DateTime (.text s) = .error .formatError ↔
        parseDateTimeMinute s = none ∧ parseDateTimeSecond s = none) := by
  refine ⟨fun s => rfl, ?_, ?_, ?_⟩
  · rfl
  · rfl
  · intro s
    have h1 : SchematicFieldType.parse_value .DateTime (.text s) =
        (match parseDateTimeMinute s with
         | some d => .ok (.dateTime d)
         | none =>
           match parseDateTimeSecond s with
           | some d => .ok (.dateTime d)
           | none => .error .formatError) := rfl
    rw [h1]
    cases hm : parseDateTimeMinute s <;> cases hs : parseDateTimeSecond s <;> simp

/-- Witness for `datetime_parse_spec`: a text matching neither pattern is a
FormatError. -/
theorem datetime_parse_spec_witness :
    SchematicFieldType.parse_value .DateTime (.text "not-a-date") = .error .formatError :=
  (datetime_parse_spec.2.2.2 "not-a-date").mpr ⟨rfl, rfl⟩

/-- Witness for `boolean_parse_spec`: a non-Text input is a TypeMismatch,
and the text maybe is a FormatError. -/
theorem boolean_parse_spec_witness :
    SchematicFieldType.parse_value .Boolean (.boolean true) =
      .error (.typeMismatch "Unable to convert to Text") ∧
    SchematicFieldType.parse_value .Boolean (.text "maybe") = .error .formatError :=
  ⟨boolean_parse_spec.2.1 (.boolean true) (fun s h => by cases h),
    boolean_parse_spec.2.2.1⟩

/-! ## Claim C6 -/

/-- `collectOption` succeeds exactly when every element succeeds. -/
theorem collectOption_isSome_iff {α β : Type} (f : α → Option β) (l : List α) :
    (collectOption f l).isSome ↔ ∀ a ∈ l, (f a).isSome := by
  induction l with
  | nil => simp [collectOption]
  | cons a as ih =>
    cases hfa : f a with
    | none => simp [collectOption, hfa]
    | some b =>
      cases hm : collectOption f as with
      | none => simp [collectOption, hfa, List.forall_mem_cons, ← ih, hm]
      | some bs => simp [collectOption, hfa, List.forall_mem_cons, ← ih, hm]

/-- Claim C6: for every string list, MultiReference coercion (and
MediaGallery coercion, which is the same code) succeeds exactly when every
element parses as a UUID; on success it returns the parsed identities in
input order (the elementwise image under `mapM`), and any malformed element
fails the whole operation with a FormatError — no partial result. -/
theorem multireference_parse_spec (l : List String) :
    (SchematicFieldType.parse_value .MultiReference (.listString l) =
      SchematicFieldType.parse_value .MediaGallery (.listString l)) ∧
    (∀ us, collectOption parseUuidStr l = some us →
      SchematicFieldType.parse_value .MultiReference (.listString l) =
        .ok (.multiReference us)) ∧
    (collectOption parseUuidStr l = none →
      SchematicFieldType.parse_value .MultiReference (.listString l) =
        .error .formatError) ∧
    ((∃ us, SchematicFieldType.parse_value .MultiReference (.listString l) =
        .ok (.multiReference us)) ↔ ∀ s ∈ l, (parseUuidStr s).isSome) := by
  have hdef : SchematicFieldType.parse_value .MultiReference (.listString l) =
      (match collectOption parseUuidStr l with
       | some us => .ok (.multiReference us)
       | none => .error .formatError) := rfl
  refine ⟨rfl, ?_, ?_, ?_⟩
  · intro us h
    rw [hdef, h]
  · intro h
    rw [hdef, h]
  · rw [hdef, ← collectOption_isSome_iff]
    cases hm : collectOption parseUuidStr l with
    | none => simp
    | some us => simp

/-- Witness for `multireference_parse_spec`: two well-formed UUID strings
parse in input order; one malformed element fails the whole list. -/
theorem multireference_parse_spec_witness :
    SchematicFieldType.parse_value .MultiReference
        (.listString ["aaaaaaaa-bbbb-cccc-dddd-eeeeeeeeeeee",
          "00000000-0000-0000-0000-000000000000"]) =
      .ok (.multiReference
        [⟨List.replicate 8 10 ++ (List.replicate 4 11 ++ (List.replicate 4 12 ++
          (List.replicate 4 13 ++ List.replicate 12 14))), by decide⟩,
         ⟨List.replicate 32 0, by decide⟩]) ∧
    SchematicFieldType.parse_value .MultiReference
        (.listString ["aaaaaaaa-bbbb-cccc-dddd-eeeeeeeeeeee", "not-a-uuid"]) =
      .error .formatError :=
  ⟨(multireference_parse_spec _).2.1 _ (by decide),
    (multireference_parse_spec _).2.2.1 (by decide)⟩

/-! ## Claim C8 -/

/-- Claim C8: equality, hashing and map behaviour of `SchematicFieldKey` are
determined entirely by `as_str()` — `Other("_id")` equals the reserved `Id`
variant (likewise for the other three reserved names), keys of equal string
form hash identically under every hasher, and an association lookup keyed by
the key's equality never distinguishes them. -/
theorem key_contract_by_string_form :
    SchematicFieldKey.keyEq (.Other "_id") .Id = true ∧
    SchematicFieldKey.keyEq (.Other "_owner") .Owner = true ∧
    SchematicFieldKey.keyEq (.Other "_createdAt") .CreatedAt = true ∧
    SchematicFieldKey.keyEq (.Other "_updatedAt") .UpdatedAt = true ∧
    (∀ k1 k2 : SchematicFieldKey, SchematicFieldKey.keyEq k1 k2 = true ↔
      k1.as_str = k2.as_str) ∧
    (∀ (hasher : String → Nat) (k1 k2 : SchematicFieldKey), k1.as_str = k2.as_str →
      SchematicFieldKey.keyHash hasher k1 = SchematicFieldKey.keyHash hasher k2) ∧
    (∀ (m : List (SchematicFieldKey × Nat)) (k1 k2 : SchematicFieldKey),
      k1.as_str = k2.as_str →
        SchematicFieldKey.keyLookup m k1 = SchematicFieldKey.keyLookup m k2) := by
  refine ⟨rfl, rfl, rfl, rfl, ?_, ?_, ?_⟩
  · intro k1 k2
    simp [SchematicFieldKey.keyEq]
  · intro hasher k1 k2 h
    simp [SchematicFieldKey.keyHash, h]
  · intro m k1 k2 h
    have : ∀ p : SchematicFieldKey × Nat,
        SchematicFieldKey.keyEq p.1 k1 = SchematicFieldKey.keyEq p.1 k2 := by
      intro p
      simp [SchematicFieldKey.keyEq, h]
    simp [SchematicFieldKey.keyLookup, funext fun p => this p]

/-- Witness for `key_contract_by_string_form`: `Other("_id")` and `Id` hash
alike under string length as the hasher, and a singleton map keyed at `Id`
answers the same for both spellings. -/
theorem key_contract_by_string_form_witness :
    SchematicFieldKey.keyHash String.length (.Other "_id") =
      SchematicFieldKey.keyHash String.length .Id ∧
    SchematicFieldKey.keyLookup [(.Id, 7)] (.Other "_id") =
      SchematicFieldKey.keyLookup [(.Id, 7)] .Id :=
  ⟨key_contract_by_string_form.2.2.2.2.2.1 String.length (.Other "_id") .Id rfl,
    key_contract_by_string_form.2.2.2.2.2.2 [(.Id, 7)] (.Other "_id") .Id rfl⟩

/-! ## Claim C9 -/

/-- Claim C9: `parse_value_bytes` classifies every byte vector by the target
type's storage shape — the `Number` arm JSON-decodes the bytes (DecodeError
when malformed), each of the fourteen text-shaped arms yields
`SimpleValue::Text` exactly when the bytes are valid UTF-8 and an
EncodingError otherwise, and each of the four binary arms always succeeds
with one `Number::Byte` per input byte, in order. -/
theorem parse_value_bytes_shapes (bytes : List (Fin 256)) :
    SchematicFieldType.parse_value_bytes .Number bytes = numberShapedBytes bytes ∧
    SchematicFieldType.parse_value_bytes .Text bytes = textShapedBytes bytes ∧
    SchematicFieldType.parse_value_bytes .URL bytes = textShapedBytes bytes ∧
    SchematicFieldType.parse_value_bytes .Email bytes = textShapedBytes bytes ∧
    SchematicFieldType.parse_value_bytes .Address bytes = textShapedBytes bytes ∧
    SchematicFieldType.parse_value_bytes .Phone bytes = textShapedBytes bytes ∧
    SchematicFieldType.parse_value_bytes .Boolean bytes = textShapedBytes bytes ∧
    SchematicFieldType.parse_value_bytes .DateTime bytes = textShapedBytes bytes ∧
    SchematicFieldType.parse_value_bytes .Date bytes = textShapedBytes bytes ∧
    SchematicFieldType.parse_value_bytes .Time bytes = textShapedBytes bytes ∧
    SchematicFieldType.parse_value_bytes .RichContent bytes = textShapedBytes bytes ∧
    SchematicFieldType.parse_value_bytes .RichText bytes = textShapedBytes bytes ∧
    SchematicFieldType.parse_value_bytes .Reference bytes = textShapedBytes bytes ∧
    SchematicFieldType.parse_value_bytes .Array bytes = textShapedBytes bytes ∧
    SchematicFieldType.parse_value_bytes .Object bytes = textShapedBytes bytes ∧
    ((∃ s, textShapedBytes bytes = .ok (.text s)) ↔ (utf8Decode bytes).isSome) ∧
    (¬(utf8Decode bytes).isSome → textShapedBytes bytes = .error .encodingError) ∧
    SchematicFieldType.parse_value_bytes .Document bytes =
      .ok (.listNumber (bytes.map Number.byte)) ∧
    SchematicFieldType.parse_value_bytes .Image bytes =
      .ok (.listNumber (bytes.map Number.byte)) ∧
    SchematicFieldType.parse_value_bytes .Video bytes =
      .ok (.listNumber (bytes.map Number.byte)) ∧
    SchematicFieldType.parse_value_bytes .Audio bytes =
      .ok (.listNumber (bytes.map Number.byte)) := by
  refine ⟨rfl, rfl, rfl, rfl, rfl, rfl, rfl, rfl, rfl, rfl, rfl, rfl, rfl, rfl, rfl,
    ?_, ?_, rfl, rfl, rfl, rfl⟩
  · cases hu : utf8Decode bytes with
    | none => simp [textShapedBytes, hu]
    | some cs => simp [textShapedBytes, hu]
  · intro h
    cases hu : utf8Decode bytes with
    | none => simp [textShapedBytes, hu]
    | some cs => simp [hu] at h

/-- Witness for `parse_value_bytes_shapes`: the byte `0xFF` is not valid
UTF-8, so every text-shaped type rejects it with an EncodingError. -/
theorem parse_value_bytes_shapes_witness :
    SchematicFieldType.parse_value_bytes .Text [255] = textShapedBytes [255] ∧
      textShapedBytes [255] = .error .encodingError :=
  ⟨(parse_value_bytes_shapes [255]).2.1,
    (parse_value_bytes_shapes [255]).2.2.2.2.2.2.2.2.2.2.2.2.2.2.2.2.1 (by decide)⟩

/-! ## Supporting lemmas for the UuidType decoder -/

/-- A nonhex head fails `takeHex` for any positive width. -/
theorem takeHex_head_nonhex {c : Nat} (h : hexVal c = none) (n : Nat) (hn : n ≠ 0)
    (cs : List Nat) : takeHex n (c :: cs) = none := by
  cases n with
  | zero => exact absurd rfl hn
  | succ m => simp [takeHex, h]

/-- A nonhex second element fails `takeHex` for any width of at least two. -/
theorem takeHex_second_nonhex {c1 c2 : Nat} {d : Fin 16} (h1 : hexVal c1 = some d)
    (h2 : hexVal c2 = none) (n : Nat) (hn : 2 ≤ n) (cs : List Nat) :
    takeHex n (c1 :: c2 :: cs) = none := by
  obtain ⟨m, rfl⟩ : ∃ m, n = m + 1 + 1 := ⟨n - 2, by omega⟩
  simp [takeHex, h1, h2]

/-- A UUID parse fails on a nonhex head. -/
theorem parseUuidList_head_nonhex {c : Nat} (h : hexVal c = none) (cs : List Nat) :
    parseUuidList (c :: cs) = none := by
  simp [parseUuidList, takeHex_head_nonhex h 8 (by decide)]

/-- A UUID parse fails on a nonhex second element. -/
theorem parseUuidList_second_nonhex {c1 c2 : Nat} {d : Fin 16} (h1 : hexVal c1 = some d)
    (h2 : hexVal c2 = none) (cs : List Nat) : parseUuidList (c1 :: c2 :: cs) = none := by
  simp [parseUuidList, takeHex_second_nonhex h1 h2 8 (by decide)]

/-- Every character of the hyphenated UUID rendering is ASCII. -/
theorem uuidHyphenated_ascii (l : List (Fin 16)) :
    ∀ c ∈ uuidHyphenated l, c.toNat < 128 := by
  have hhex : ∀ d : Fin 16, (hexChar d).toNat < 128 := by decide
  intro c hc
  simp only [uuidHyphenated, List.mem_append, List.mem_cons, List.mem_map] at hc
  rcases hc with ⟨d, -, rfl⟩ | rfl | ⟨d, -, rfl⟩ | rfl | ⟨d, -, rfl⟩ | rfl | ⟨d, -, rfl⟩
    | rfl | ⟨d, -, rfl⟩
  exacts [hhex d, by decide, hhex d, by decide, hhex d, by decide, hhex d, by decide, hhex d]

/-- UTF-8 encoding of ASCII characters is one identity byte per character. -/
theorem flatten_encode_ascii (cs : List Char) (h : ∀ c ∈ cs, c.toNat < 128) :
    (cs.map utf8EncodeChar).flatten = cs.map Char.toNat := by
  induction cs with
  | nil => rfl
  | cons c cs ih =>
    have hc : utf8EncodeChar c = [c.toNat] := by
      simp [utf8EncodeChar, h c (by simp)]
    simp only [List.map_cons]
    rw [show ((utf8EncodeChar c :: cs.map utf8EncodeChar).flatten =
      utf8EncodeChar c ++ (cs.map utf8EncodeChar).flatten) from rfl]
    rw [hc, ih (fun x hx => h x (by simp [hx]))]
    rfl

/-- `str::as_bytes` of an all-ASCII string is the characters' codepoints. -/
theorem strBytes_of_ascii (s : String) (h : ∀ c ∈ s.toList, c.toNat < 128) :
    strBytes s = s.toList.map Char.toNat :=
  flatten_encode_ascii s.toList h

/-- The character list of an `s:`/`a:`-prefixed canonical UUID rendering. -/
theorem toList_prefixed (p : Char) (u : Uuid) :
    ((String.mk [p, ':']) ++ formatUuid u).toList = p :: ':' :: uuidHyphenated u.val := rfl

/-- The bare-UUID attempt fails on the `s:`-prefixed form: `s` is not a
hexadecimal digit. -/
theorem parseUuidStr_s_prefixed (u : Uuid) :
    parseUuidStr ("s:" ++ formatUuid u) = none := by
  rw [parseUuidStr, show ("s:" ++ formatUuid u).toList = 's' :: ':' :: uuidHyphenated u.val
    from rfl]
  simp only [List.map_cons]
  exact parseUuidList_head_nonhex (by decide) _

/-- The bare-UUID attempt fails on the `a:`-prefixed form: `a` is a
hexadecimal digit but the following colon is not. -/
theorem parseUuidStr_a_prefixed (u : Uuid) :
    parseUuidStr ("a:" ++ formatUuid u) = none := by
  rw [parseUuidStr, show ("a:" ++ formatUuid u).toList = 'a' :: ':' :: uuidHyphenated u.val
    from rfl]
  simp only [List.map_cons]
  exact parseUuidList_second_nonhex (d := 10) (by decide) (by decide) _

/-- The byte form of a prefixed canonical UUID rendering. -/
theorem strBytes_prefixed (p : Char) (hp : p.toNat < 128) (u : Uuid) :
    strBytes (String.mk [p, ':'] ++ formatUuid u) =
      p.toNat :: 58 :: (uuidHyphenated u.val).map Char.toNat := by
  rw [strBytes_of_ascii]
  · rw [toList_prefixed]
    rfl
  · rw [toList_prefixed]
    intro c hc
    simp only [List.mem_cons] at hc
    rcases hc with rfl | rfl | hc
    · exact hp
    · decide
    · exact uuidHyphenated_ascii u.val c hc

/-- `Uuid::try_parse_ascii` succeeds on the byte form of the canonical
rendering. -/
theorem tryParseAscii_format (u : Uuid) :
    UuidType.tryParseAscii ((uuidHyphenated u.val).map Char.toNat) = some u :=
  parseUuid_format u

/-! ## Claim C7 -/

/-- Claim C7: `UuidType` decode maps `s:<valid-uuid>` to `Site`,
`a:<valid-uuid>` to `Addon`, and a bare valid UUID to `Site`; when the input
is not a bare UUID, the single leading byte is the sole discriminator, and
any leading byte other than `s` or `a` fails with the custom decode error
Unknown. -/
theorem uuidtype_decode_spec :
    (∀ u : Uuid, UuidType.deserialize ("s:" ++ formatUuid u) = .ok (.site u)) ∧
    (∀ u : Uuid, UuidType.deserialize ("a:" ++ formatUuid u) = .ok (.addon u)) ∧
    (∀ u : Uuid, UuidType.deserialize (formatUuid u) = .ok (.site u)) ∧
    (∀ (s : String) (b : Nat) (bs : List Nat), websitePublicIdFromStr s = none →
      strBytes s = b :: bs → b ≠ 115 → b ≠ 97 →
      UuidType.deserialize s = .error (.custom "Unknown")) := by
  refine ⟨?_, ?_, ?_, ?_⟩
  · intro u
    have hbytes := strBytes_prefixed 's' (by decide) u
    rw [UuidType.deserialize, websitePublicIdFromStr, parseUuidStr_s_prefixed u,
      show ("s:" : String) = String.mk ['s', ':'] from rfl, hbytes]
    simp only [List.drop_succ_cons, List.drop_zero, List.length_cons]
    rw [show UuidType.tryParseAscii ((uuidHyphenated u.val).map Char.toNat) =
      parseUuidStr (formatUuid u) from rfl, parseUuid_format u]
    simp
  · intro u
    have hbytes := strBytes_prefixed 'a' (by decide) u
    rw [UuidType.deserialize, websitePublicIdFromStr, parseUuidStr_a_prefixed u,
      show ("a:" : String) = String.mk ['a', ':'] from rfl, hbytes]
    simp only [List.drop_succ_cons, List.drop_zero, List.length_cons]
    rw [show UuidType.tryParseAscii ((uuidHyphenated u.val).map Char.toNat) =
      parseUuidStr (formatUuid u) from rfl, parseUuid_format u]
    simp
  · intro u
    rw [UuidType.deserialize, websitePublicIdFromStr, parseUuid_format u]
  · intro s b bs hbare hb h115 h97
    rw [UuidType.deserialize, hbare, hb]
    simp [h115, h97]

/-- Witness for `uuidtype_decode_spec`: the all-zero UUID decodes as `Site`
under the `s:` prefix, and an `x:` prefix is the Unknown decode error. -/
theorem uuidtype_decode_spec_witness :
    UuidType.deserialize ("s:" ++ formatUuid ⟨List.replicate 32 0, by decide⟩) =
      .ok (.site ⟨List.replicate 32 0, by decide⟩) ∧
    UuidType.deserialize "x:aaaaaaaa-bbbb-cccc-dddd-eeeeeeeeeeee" =
      .error (.custom "Unknown") :=
  ⟨uuidtype_decode_spec.1 ⟨List.replicate 32 0, by decide⟩,
    uuidtype_decode_spec.2.2.2 "x:aaaaaaaa-bbbb-cccc-dddd-eeeeeeeeeeee" 120
      (strBytes "x:aaaaaaaa-bbbb-cccc-dddd-eeeeeeeeeeee").tail
      (by decide) (by decide) (by decide) (by decide)⟩

/-! ## Claim C10 -/

/-- Claim C10: for an input that is not a bare UUID and whose first byte is
`s` or `a`, the decoder succeeds exactly when the bytes from index 2 onward
form a valid ASCII UUID — the second byte is never examined — and when that
parse fails the result is a panic (`Option::unwrap` on `None`, or the slice
bound when the input is shorter than two bytes) rather than a decode error;
the empty string panics on the `bytes[0]` indexing; `s:not-a-uuid` panics on
the unwrap. -/
theorem uuidtype_decode_prefixed_panics :
    (∀ (s : String) (b : Nat) (bs : List Nat), websitePublicIdFromStr s = none →
      strBytes s = b :: bs → b = 115 ∨ b = 97 →
      (((∃ t, UuidType.deserialize s = .ok t) ↔
          (UuidType.tryParseAscii ((strBytes s).drop 2)).isSome) ∧
        (∀ u, UuidType.tryParseAscii ((strBytes s).drop 2) = some u →
          UuidType.deserialize s = .ok (if b = 115 then .site u else .addon u)) ∧
        (UuidType.tryParseAscii ((strBytes s).drop 2) = none →
          ∃ msg, UuidType.deserialize s = .error (.panicked msg)))) ∧
    UuidType.deserialize "" = .error (.panicked "index out of bounds") ∧
    UuidType.deserialize "s:not-a-uuid" =
      .error (.panicked "called unwrap on a None value") := by
  refine ⟨?_, by rfl, by rfl⟩
  intro s b bs hbare hb hsa
  have hdef : UuidType.deserialize s =
      (match strBytes s with
       | [] => .error (.panicked "index out of bounds")
       | b :: _ =>
         if b = 115 then
           if 2 ≤ (strBytes s).length then
             match UuidType.tryParseAscii ((strBytes s).drop 2) with
             | some u => .ok (.site u)
             | none => .error (.panicked "called unwrap on a None value")
           else .error (.panicked "slice range out of bounds")
         else if b = 97 then
           if 2 ≤ (strBytes s).length then
             match UuidType.tryParseAscii ((strBytes s).drop 2) with
             | some u => .ok (.addon u)
             | none => .error (.panicked "called unwrap on a None value")
           else .error (.panicked "slice range out of bounds")
         else .error (.custom "Unknown")) := by
    rw [UuidType.deserialize, hbare]
  rcases hsa with rfl | rfl
  · cases bs with
    | nil =>
      rw [hb] at hdef
      simp at hdef
      have hkey : (strBytes s).drop 2 = [] := by rw [hb]; rfl
      rw [hkey]
      have hparse : UuidType.tryParseAscii ([] : List Nat) = none := by decide
      exact ⟨by simp [hdef, hparse],
        fun u hu => absurd (hparse.symm.trans hu) (by simp),
        fun _ => ⟨_, hdef⟩⟩
    | cons b2 rest =>
      rw [hb] at hdef
      simp at hdef
      have hkey : (strBytes s).drop 2 = rest := by rw [hb]; rfl
      rw [hkey]
      cases hparse : UuidType.tryParseAscii rest with
      | some u =>
        rw [hparse] at hdef
        refine ⟨by simp [hdef], fun u2 hu2 => ?_, fun hc => absurd hc (by simp)⟩
        have h2 : u = u2 := by injection hu2
        subst h2
        simp [hdef]
      | none =>
        rw [hparse] at hdef
        exact ⟨by simp [hdef], fun u hu => absurd hu (by simp),
          fun _ => ⟨_, hdef⟩⟩
  · cases bs with
    | nil =>
      rw [hb] at hdef
      simp at hdef
      have hkey : (strBytes s).drop 2 = [] := by rw [hb]; rfl
      rw [hkey]
      have hparse : UuidType.tryParseAscii ([] : List Nat) = none := by decide
      exact ⟨by simp [hdef, hparse],
        fun u hu => absurd (hparse.symm.trans hu) (by simp),
        fun _ => ⟨_, hdef⟩⟩
    | cons b2 rest =>
      rw [hb] at hdef
      simp at hdef
      have hkey : (strBytes s).drop 2 = rest := by rw [hb]; rfl
      rw [hkey]
      cases hparse : UuidType.tryParseAscii rest with
      | some u =>
        rw [hparse] at hdef
        refine ⟨by simp [hdef], fun u2 hu2 => ?_, fun hc => absurd hc (by simp)⟩
        have h2 : u = u2 := by injection hu2
        subst h2
        simp [hdef]
      | none =>
        rw [hparse] at hdef
        exact ⟨by simp [hdef], fun u hu => absurd hu (by simp),
          fun _ => ⟨_, hdef⟩⟩

/-- Witness for `uuidtype_decode_prefixed_panics`: the second byte is `X`
rather than a colon, yet decode succeeds as `Site` because only the bytes
from index 2 are parsed. -/
theorem uuidtype_decode_prefixed_panics_witness :
    UuidType.deserialize "sXaaaaaaaa-bbbb-cccc-dddd-eeeeeeeeeeee" =
      .ok (.site ⟨List.replicate 8 10 ++ (List.replicate 4 11 ++ (List.replicate 4 12 ++
        (List.replicate 4 13 ++ List.replicate 12 14))), by decide⟩) := by
  have h := (uuidtype_decode_prefixed_panics.1 "sXaaaaaaaa-bbbb-cccc-dddd-eeeeeeeeeeee"
    115 (strBytes "sXaaaaaaaa-bbbb-cccc-dddd-eeeeeeeeeeee").tail
    (by decide) (by decide) (Or.inl rfl)).2.1
    ⟨List.replicate 8 10 ++ (List.replicate 4 11 ++ (List.replicate 4 12 ++
      (List.replicate 4 13 ++ List.replicate 12 14))), by decide⟩ (by decide)
  simpa using h

end GlobalCommon
